import Mathlib

/-!
Shallow embedding of the `s3_object` reconciliation module
(`plugins/modules/s3_object.py`) and proofs about its behaviour.

Python dictionaries of object tags are embedded as association lists
(`TagMap`); dictionary equality (`==` on `dict`) becomes `dictEq`,
two-sided lookup agreement.  Remote S3 calls are recorded in an
explicit trace (`S3Call`); backend responses and observed tag sets are
supplied as explicit inputs, so every function here is a pure,
executable translation of the corresponding Python function.
-/

namespace S3Object

/-- Object tag dictionaries: association lists of key/value pairs.
The module keeps at most one entry per key (Python `dict`). -/
abbrev TagMap := List (String × String)

/-- Python `d[k]` lookup on a tag dictionary (first matching key). -/
def tagLookup (k : String) : TagMap → Option String
  | [] => none
  | (k', v) :: rest => if k' = k then some v else tagLookup k rest

/-- Python `d[k] = v`: replace the value at `k` in place, or append a
fresh entry at the end (dict insertion order). -/
def dictInsert : TagMap → String → String → TagMap
  | [], k, v => [(k, v)]
  | (k', v') :: rest, k, v =>
      if k' = k then (k, v) :: rest else (k', v') :: dictInsert rest k v

/-- Python `m.update(tags)`: fold every pair of `tags` into `m`,
later occurrences winning (source: `ensure_tags`,
`current_copy.update(tags)`). -/
def dictUpdate (m tags : TagMap) : TagMap :=
  tags.foldl (fun acc kv => dictInsert acc kv.1 kv.2) m

/-- Python `==` on tag dictionaries: the two maps agree on every key
of either side.  On duplicate-free association lists this is exactly
dict equality. -/
def dictEq (a b : TagMap) : Bool :=
  a.all (fun kv => tagLookup kv.1 b == some kv.2) &&
    b.all (fun kv => tagLookup kv.1 a == some kv.2)

/-- A (key, optional version id) deletion identifier, as built by
`paginated_versioned_list_with_fallback`. -/
structure ObjRef where
  key : String
  versionId : Option String
deriving DecidableEq, Repr

/-- The remote S3 calls the module can issue.  Read-only calls and
mutating calls share this alphabet; `mutatingCall` classifies them. -/
inductive S3Call
  | headObject
  | headBucket
  | getObject
  | getObjectTagging
  | putObjectTagging (tags : TagMap)
  | deleteObjectTagging
  | uploadFile
  | uploadFileobj
  | putObjectAcl
  | putBucketAcl
  | createBucketCall
  | deleteObjectsCall (objs : List ObjRef)
  | deleteBucketCall
  | deleteObjectCall
  | downloadFileCall
  | presignGet
  | presignPut
deriving DecidableEq, Repr

/-- Does a call mutate remote state? -/
def mutatingCall : S3Call → Bool
  | .putObjectTagging _ => true
  | .deleteObjectTagging => true
  | .uploadFile => true
  | .uploadFileobj => true
  | .putObjectAcl => true
  | .putBucketAcl => true
  | .createBucketCall => true
  | .deleteObjectsCall _ => true
  | .deleteBucketCall => true
  | .deleteObjectCall => true
  | _ => false

/-- Calls issued by the tag-convergence machinery. -/
def isTagCall : S3Call → Bool
  | .getObjectTagging => true
  | .putObjectTagging _ => true
  | .deleteObjectTagging => true
  | _ => false

/-! ## Existence probes (`key_check`, `bucket_check`) -/

/-- The four response classes a `head_object`/`head_bucket` call can
produce, as discriminated by the module's `except` clauses. -/
inductive HeadResponse
  | ok
  | notFound
  | forbidden
  | otherError
deriving DecidableEq, Repr

/-- Result of an existence probe.  `fatalValidate` is
`module.fail_json_aws` (cause attached); `fatalOther` is the raised
`S3ObjectFailure` (cause attached). -/
inductive ProbeResult
  | present
  | absent
  | fatalValidate (cause : HeadResponse)
  | fatalOther (cause : HeadResponse)
deriving DecidableEq, Repr

/-- `key_check(module, s3, bucket, obj, version, validate)`: 404 is
absent; 403 is fatal when `validate` else falls through to
`return True`; other client faults raise `S3ObjectFailure`. -/
def key_check (validate : Bool) (resp : HeadResponse) : ProbeResult :=
  match resp with
  | .ok => .present
  | .notFound => .absent
  | .forbidden => if validate then .fatalValidate .forbidden else .present
  | .otherError => .fatalOther .otherError

/-- `bucket_check(module, s3, bucket, validate)`: the same branch
structure as `key_check`, at bucket level. -/
def bucket_check (validate : Bool) (resp : HeadResponse) : ProbeResult :=
  match resp with
  | .ok => .present
  | .notFound => .absent
  | .forbidden => if validate then .fatalValidate .forbidden else .present
  | .otherError => .fatalOther .otherError

/-! ## Tag convergence (`wait_tags_are_applied`, `ensure_tags`) -/

/-- Result of the tag polling loop.  `fetches` counts
`get_object_tagging` calls made; `sleptUnits` accumulates the
`time.sleep(5)` durations. -/
inductive WaitOutcome
  | converged (tags : TagMap) (fetches sleptUnits : Nat)
  | timedOut (requested live : TagMap) (fetches sleptUnits : Nat)
deriving DecidableEq, Repr

/-- Number of tag fetches performed by a polling run. -/
def waitFetches : WaitOutcome → Nat
  | .converged _ n _ => n
  | .timedOut _ _ n _ => n

/-- One step of `for dummy in range(0, 12)` in
`wait_tags_are_applied`: `fuel` is the number of iterations left, `i`
the index of the next fetch, `slept` the time slept so far.  The
backend's answer to the `n`-th `get_object_tagging` call is
`observe n`.  When the loop ends without returning, the module calls
`fail_json` with the requested and the last-fetched tag sets. -/
def waitGo (expected : TagMap) (observe : Nat → TagMap) :
    Nat → Nat → Nat → WaitOutcome
  | 0, i, slept => .timedOut expected (observe (i - 1)) i slept
  | fuel + 1, i, slept =>
      let cur := observe i
      if dictEq cur expected then .converged cur (i + 1) slept
      else waitGo expected observe fuel (i + 1) (slept + 5)

/-- `wait_tags_are_applied(module, s3, bucket, obj, expected_tags_dict)`:
poll the live tags up to 12 times, sleeping 5 seconds after each
mismatch, and fail (reporting `requested_tags` and `live_tags`) when
the bound is exhausted. -/
def wait_tags_are_applied (expected : TagMap) (observe : Nat → TagMap) :
    WaitOutcome :=
  waitGo expected observe 12 0 0

/-- Outcome of `ensure_tags`: the normal return `(tags, changed)`, or
the `fail_json` raised by an exhausted polling loop. -/
inductive EnsureOutcome
  | ok (tags : TagMap) (changed : Bool)
  | failedTimeout (requested live : TagMap)
deriving DecidableEq, Repr

/-- An `ensure_tags` run: the trace of S3 calls it issued and its
outcome. -/
structure EnsureTagsResult where
  calls : List S3Call
  outcome : EnsureOutcome
deriving DecidableEq, Repr

/-- `ensure_tags(client, module, bucket, obj)`.  `tagsParam` /
`purge` are the module's `tags` / `purge_tags` parameters; `current`
is the answer to the initial `get_object_tagging`; `observe` feeds
the polling loop's re-fetches.  Mirrors the source: when `tags` is
set, merge unless purging, compare with `!=`, then either
`put_object_tagging` (non-empty target) or `delete_object_tagging`
(empty target under purge), and wait for convergence. -/
def ensure_tags (tagsParam : Option TagMap) (purge : Bool)
    (current : TagMap) (observe : Nat → TagMap) : EnsureTagsResult :=
  match tagsParam with
  | none => ⟨[S3Call.getObjectTagging], .ok current false⟩
  | some desired0 =>
      let desired := if purge then desired0 else dictUpdate current desired0
      if dictEq current desired then
        ⟨[S3Call.getObjectTagging], .ok current false⟩
      else
        let mutCalls : List S3Call :=
          if desired ≠ [] then [S3Call.putObjectTagging desired]
          else if purge then [S3Call.deleteObjectTagging] else []
        match wait_tags_are_applied desired observe with
        | .converged t n _ =>
            ⟨S3Call.getObjectTagging :: mutCalls ++
                List.replicate n S3Call.getObjectTagging,
              .ok t true⟩
        | .timedOut req live n _ =>
            ⟨S3Call.getObjectTagging :: mutCalls ++
                List.replicate n S3Call.getObjectTagging,
              .failedTimeout req live⟩

/-! ## Download transfer loop (`download_s3file`) -/

/-- Exception classes of one `s3.download_file` attempt, matching the
loop's `except` clauses: `clientError`/`botoCoreError` are the first
clause, `sslError` the second; anything else propagates uncaught. -/
inductive TransferFault
  | clientError
  | botoCoreError
  | sslError
  | otherFault
deriving DecidableEq, Repr

/-- What one iteration's `s3.download_file` call does. -/
inductive AttemptOutcome
  | success
  | fault (f : TransferFault)
deriving DecidableEq, Repr

/-- Result of the transfer loop.  Every constructor records how many
`download_file` attempts were made.  `failedS3` is the raised
`S3ObjectFailure` (cause attached), `failedJson` the
`fail_json_aws` on the `SSLError` branch (cause attached),
`propagated` an exception no `except` clause catches, and
`loopEnded` the Python `for` loop running out of iterations. -/
inductive DownloadResult
  | completed (attempts : Nat)
  | failedS3 (attempts : Nat) (cause : TransferFault)
  | failedJson (attempts : Nat) (cause : TransferFault)
  | propagated (attempts : Nat) (cause : TransferFault)
  | loopEnded (attempts : Nat)
deriving DecidableEq, Repr

/-- Attempts recorded in a transfer-loop result. -/
def attemptsOf : DownloadResult → Nat
  | .completed n => n
  | .failedS3 n _ => n
  | .failedJson n _ => n
  | .propagated n _ => n
  | .loopEnded n => n

/-- The body of `for x in range(0, retries + 1)` in
`download_s3file`: `fuel` is the number of loop iterations remaining,
`x` the current index, `attempt x` the outcome of the `x`-th
`download_file` call.  On a caught fault the loop re-tries unless
`x >= retries`, in which case it fails carrying the cause. -/
def downloadLoop (attempt : Nat → AttemptOutcome) (retries : Nat) :
    Nat → Nat → DownloadResult
  | 0, x => .loopEnded x
  | fuel + 1, x =>
      match attempt x with
      | .success => .completed (x + 1)
      | .fault .clientError =>
          if retries ≤ x then .failedS3 (x + 1) .clientError
          else downloadLoop attempt retries fuel (x + 1)
      | .fault .botoCoreError =>
          if retries ≤ x then .failedS3 (x + 1) .botoCoreError
          else downloadLoop attempt retries fuel (x + 1)
      | .fault .sslError =>
          if retries ≤ x then .failedJson (x + 1) .sslError
          else downloadLoop attempt retries fuel (x + 1)
      | .fault .otherFault => .propagated (x + 1) .otherFault

/-- The transfer phase of `download_s3file`: the retry loop entered
with `range(0, retries + 1)`. -/
def download_s3file_transfer (attempt : Nat → AttemptOutcome)
    (retries : Nat) : DownloadResult :=
  downloadLoop attempt retries (retries + 1) 0

/-! ## The signature-v4 retry paths of `do_get` / `do_getstr` -/

/-- The keys bound in the `s3_vars` dictionary by the time a mode
handler runs: the module's argument spec (plus the shared AWS
arguments), then the keys added by `populate_facts` and
`validate_bucket`. -/
def s3VarsKeys : List String :=
  ["bucket", "dest", "encrypt", "encryption_mode", "expiry", "headers",
   "marker", "max_keys", "metadata", "mode", "sig_v4", "object",
   "permission", "version", "overwrite", "retries", "dualstack",
   "ceph", "src", "content", "content_base64",
   "ignore_nonexistent_bucket", "encryption_kms_key_id", "tags",
   "purge_tags", "copy_src", "validate_bucket_name",
   "endpoint_url", "region", "access_key", "secret_key",
   "session_token", "profile", "validate_certs", "aws_ca_bundle",
   "aws_config", "debug_botocore_endpoint_logs",
   "object_canned_acl", "bucket_canned_acl", "location",
   "aws_connect_kwargs", "validate", "acl_disabled",
   "bucket_acl", "object_acl", "bucketrtn"]
  ++ ["prefix"]

/-- What the `except Sigv4Required:` recovery block achieves. -/
inductive Sigv4Retry
  | downloadRetried
  | keyErrorRaised (missing : String)
deriving DecidableEq, Repr

/-- The `except Sigv4Required:` handler of `s3_object_do_get`: after
reconnecting with `sig_4=True` it calls
`download_s3file(..., s3_vars["bucket"], s3_vars["obj"], ...)`;
a subscript on a missing key raises `KeyError`. -/
def do_get_sigv4_retry (keys : List String) : Sigv4Retry :=
  if "bucket" ∈ keys then
    if "obj" ∈ keys then .downloadRetried else .keyErrorRaised "obj"
  else .keyErrorRaised "bucket"

/-- The `except Sigv4Required:` handler of `s3_object_do_getstr`:
after reconnecting with `sig_4=True` it calls
`download_s3str(..., s3_vars["bucket"], s3_vars["object"], ...)`. -/
def do_getstr_sigv4_retry (keys : List String) : Sigv4Retry :=
  if "bucket" ∈ keys then
    if "object" ∈ keys then .downloadRetried else .keyErrorRaised "object"
  else .keyErrorRaised "bucket"

/-! ## The put workflow (`s3_object_do_put`) -/

/-- The inputs `s3_object_do_put` consumes.  Backend-dependent facts
are explicit: `bucketrtn`/`keyPresent` are the existence probes'
results, `etagMatch` the verdict of `etag_compare`, `currentTags` and
`observe` feed `ensure_tags`. -/
structure PutVars where
  checkMode : Bool
  contentIsNone : Bool
  contentB64IsNone : Bool
  srcIsNone : Bool
  srcPathExists : Bool
  bucketrtn : Bool
  keyPresent : Bool
  aclDisabled : Bool
  overwrite : String
  etagMatch : Bool
  tags : Option TagMap
  purgeTags : Bool
  currentTags : TagMap
  observe : Nat → TagMap

/-- How a `s3_object_do_put` invocation terminates. -/
inductive PutOutcome
  | failedValidation (msg : String)
  | exitedCheckMode (msg : String)
  | exitedSkip (changed : Bool)
  | exitedUploaded
  | failedTagTimeout (requested live : TagMap)

/-- A put run: issued S3 calls plus the terminal outcome. -/
structure PutRun where
  calls : List S3Call
  outcome : PutOutcome

/-- The overwrite skip branch of `s3_object_do_put`: `ensure_tags`
then `get_download_url`, which exits with `changed=tags_update` and
the freshly presigned GET URL. -/
def putSkipBranch (v : PutVars) (callsBefore : List S3Call) : PutRun :=
  let er := ensure_tags v.tags v.purgeTags v.currentTags v.observe
  match er.outcome with
  | .ok _t c => ⟨callsBefore ++ er.calls ++ [S3Call.presignGet], .exitedSkip c⟩
  | .failedTimeout req live => ⟨callsBefore ++ er.calls, .failedTagTimeout req live⟩

/-- The upload tail of `s3_object_do_put`: `upload_s3file` (which
exits early in check mode), then `put_object_acl` unless ACLs are
disabled, `ensure_tags`, `put_download_url`, and the final
`exit_json(changed=True)`. -/
def putUploadBranch (v : PutVars) (callsBefore : List S3Call) : PutRun :=
  if v.checkMode then
    ⟨callsBefore, .exitedCheckMode "PUT operation skipped - running in check mode"⟩
  else
    let up := if v.srcIsNone then S3Call.uploadFileobj else S3Call.uploadFile
    let acl := if v.aclDisabled then ([] : List S3Call) else [S3Call.putObjectAcl]
    let er := ensure_tags v.tags v.purgeTags v.currentTags v.observe
    match er.outcome with
    | .ok _t _c =>
        ⟨callsBefore ++ up :: acl ++ er.calls ++ [S3Call.presignPut], .exitedUploaded⟩
    | .failedTimeout req live =>
        ⟨callsBefore ++ up :: acl ++ er.calls, .failedTagTimeout req live⟩

/-- `s3_object_do_put(module, connection, s3_vars)`: source-field
validation, key probe or bucket creation, the
`keyrtn and overwrite != "always"` skip test (with `or`
short-circuit: `etag_compare` — one `head_object` — runs only when
`overwrite != "never"`), then the upload tail. -/
def s3_object_do_put (v : PutVars) : PutRun :=
  if v.contentIsNone ∧ v.contentB64IsNone ∧ v.srcIsNone then
    ⟨[], .failedValidation
        "Either content, content_base64 or src must be specified for PUT operations"⟩
  else if ¬v.srcIsNone ∧ ¬v.srcPathExists then
    ⟨[], .failedValidation "Local object does not exist for PUT operation"⟩
  else if v.bucketrtn then
    if v.keyPresent ∧ v.overwrite ≠ "always" then
      if v.overwrite = "never" then
        putSkipBranch v [S3Call.headObject]
      else if v.etagMatch then
        putSkipBranch v [S3Call.headObject, S3Call.headObject]
      else
        putUploadBranch v [S3Call.headObject, S3Call.headObject]
    else
      putUploadBranch v [S3Call.headObject]
  else
    if v.checkMode then
      ⟨[], .exitedCheckMode "CREATE operation skipped - running in check mode"⟩
    else
      putUploadBranch v [S3Call.createBucketCall, S3Call.putBucketAcl]

/-! ## The get overwrite gate (`s3_object_do_get`) -/

/-- Inputs consumed by the pre-download part of `s3_object_do_get`. -/
structure GetVars where
  keyPresent : Bool
  destTruthy : Bool
  destPathExists : Bool
  overwrite : String
  etagMatch : Bool
  localLatest : Bool

/-- What the pre-download part of `s3_object_do_get` decides. -/
inductive GetDecision
  | failMissingKey
  | skippedNever
  | skippedIdentical
  | skippedLatest
  | download
deriving DecidableEq, Repr

/-- The decision logic of `s3_object_do_get` before `download_s3file`:
the overwrite policy is consulted only under
`s3_vars["dest"] and path_check(s3_vars["dest"]) and
s3_vars["overwrite"] != "always"`. -/
def s3_object_do_get_decision (v : GetVars) : GetDecision :=
  if ¬v.keyPresent then .failMissingKey
  else if v.destTruthy ∧ v.destPathExists ∧ v.overwrite ≠ "always" then
    if v.overwrite = "never" then .skippedNever
    else if v.overwrite = "different" ∧ v.etagMatch then .skippedIdentical
    else if v.overwrite = "latest" ∧ v.localLatest then .skippedLatest
    else .download
  else .download

/-! ## Bulk bucket deletion (`delete_bucket`, `s3_object_do_delete`) -/

/-- The remote state the delete path touches: whether the bucket
exists, and the pages its version listing yields. -/
structure S3World where
  bucketExists : Bool
  pages : List (List ObjRef)
deriving DecidableEq, Repr

/-- How `delete_bucket` terminates. -/
inductive DeleteBucketOutcome
  | checkModeExit
  | returned (b : Bool)
deriving DecidableEq, Repr

/-- `delete_bucket(module, s3, bucket)`: check-mode exit, then
`bucket_check`; an absent bucket returns `False` with no deletion
call; otherwise one `delete_objects` batch per non-empty page,
`delete_bucket`, and `True`.  Returns (outcome, issued calls,
resulting world). -/
def delete_bucket (checkMode : Bool) (w : S3World) :
    DeleteBucketOutcome × List S3Call × S3World :=
  if checkMode then (.checkModeExit, [], w)
  else if w.bucketExists then
    let delCalls := (w.pages.filter (fun p => ¬p.isEmpty)).map
      (fun p => S3Call.deleteObjectsCall p)
    (.returned true,
      S3Call.headBucket :: delCalls ++ [S3Call.deleteBucketCall],
      ⟨false, []⟩)
  else (.returned false, [S3Call.headBucket], w)

/-- How `s3_object_do_delete` terminates: a missing bucket parameter
fails; a `True` from `delete_bucket` exits with `changed=True`; a
`False` falls through to `main`'s `module.exit_json(failed=False)`,
which reports `changed=False`. -/
inductive DeleteModeOutcome
  | failedMissingBucket
  | checkModeExit
  | exitedChanged
  | exitedUnchanged
deriving DecidableEq, Repr

/-- `s3_object_do_delete(module, connection, s3_vars)`. -/
def s3_object_do_delete (bucketGiven checkMode : Bool) (w : S3World) :
    DeleteModeOutcome × List S3Call × S3World :=
  if ¬bucketGiven then (.failedMissingBucket, [], w)
  else
    match delete_bucket checkMode w with
    | (.checkModeExit, c, w') => (.checkModeExit, c, w')
    | (.returned true, c, w') => (.exitedChanged, c, w')
    | (.returned false, c, w') => (.exitedUnchanged, c, w')

/-! ## Overwrite policy normalisation (`populate_facts`) -/

/-- The overwrite normalisation step of `populate_facts`:
a value outside the four-policy enum is coerced through
`module.boolean` (supplied here as the interpretation `b`) to
`"always"` or `"never"`; enum members pass through unchanged. -/
def populate_overwrite (b : String → Bool) (ow : String) : String :=
  if ow = "always" ∨ ow = "never" ∨ ow = "different" ∨ ow = "latest" then ow
  else if b ow then "always" else "never"

/-- A check-mode put request against a present key with
`overwrite=never`, desired tags `{a: 1}`, `purge_tags=true`, and an
empty current remote tag set. -/
def putCheckModeVars : PutVars where
  checkMode := true
  contentIsNone := false
  contentB64IsNone := true
  srcIsNone := true
  srcPathExists := false
  bucketrtn := true
  keyPresent := true
  aclDisabled := false
  overwrite := "never"
  etagMatch := false
  tags := some [("a", "1")]
  purgeTags := true
  currentTags := []
  observe := fun _ => [("a", "1")]

/-- A non-check-mode put request against a present key with
`overwrite=never` whose desired tags already match the remote ones. -/
def putSkipWitnessVars : PutVars where
  checkMode := false
  contentIsNone := false
  contentB64IsNone := true
  srcIsNone := true
  srcPathExists := false
  bucketrtn := true
  keyPresent := true
  aclDisabled := false
  overwrite := "never"
  etagMatch := false
  tags := some [("a", "1")]
  purgeTags := true
  currentTags := [("a", "1")]
  observe := fun _ => [("a", "1")]

/-! ## Helper lemmas -/

theorem tagLookup_dictInsert_self (m : TagMap) (k v : String) :
    tagLookup k (dictInsert m k v) = some v := by
  induction m with
  | nil => simp [dictInsert, tagLookup]
  | cons kv rest ih =>
      rcases kv with ⟨k', v'⟩
      by_cases h : k' = k
      · simp [dictInsert, h, tagLookup]
      · simp [dictInsert, h, tagLookup, ih]

theorem tagLookup_dictInsert_ne (m : TagMap) (k k' v : String) (h : k' ≠ k) :
    tagLookup k (dictInsert m k' v) = tagLookup k m := by
  induction m with
  | nil => simp [dictInsert, tagLookup, h]
  | cons kv rest ih =>
      rcases kv with ⟨k₀, v₀⟩
      by_cases h0 : k₀ = k'
      · subst h0; simp [dictInsert, tagLookup, h]
      · simp [dictInsert, h0, tagLookup, ih]

theorem tagLookup_dictUpdate_not_mem (ds : TagMap) :
    ∀ (m : TagMap) (k : String), k ∉ ds.map Prod.fst →
      tagLookup k (dictUpdate m ds) = tagLookup k m := by
  induction ds with
  | nil => intro m k _; rfl
  | cons d rest ih =>
      intro m k hk
      simp only [List.map_cons, List.mem_cons, not_or] at hk
      have step : dictUpdate m (d :: rest) = dictUpdate (dictInsert m d.1 d.2) rest := rfl
      rw [step, ih _ k hk.2, tagLookup_dictInsert_ne]
      exact fun hdk => hk.1 hdk.symm

theorem tagLookup_dictUpdate_mem (ds : TagMap) :
    ∀ (m : TagMap) (k v : String), (ds.map Prod.fst).Nodup →
      tagLookup k ds = some v → tagLookup k (dictUpdate m ds) = some v := by
  induction ds with
  | nil => intro m k v _ hl; simp [tagLookup] at hl
  | cons d rest ih =>
      intro m k v hnd hl
      rcases d with ⟨dk, dv⟩
      have step : dictUpdate m ((dk, dv) :: rest)
          = dictUpdate (dictInsert m dk dv) rest := rfl
      simp only [List.map_cons, List.nodup_cons] at hnd
      by_cases h : dk = k
      · subst h
        simp only [tagLookup, if_pos rfl, if_true, eq_self_iff_true,
          Option.some.injEq] at hl
        rw [step, tagLookup_dictUpdate_not_mem rest _ dk hnd.1,
          tagLookup_dictInsert_self, hl]
      · simp only [tagLookup, if_neg h] at hl
        rw [step]
        exact ih _ k v hnd.2 hl

theorem waitGo_step (e : TagMap) (o : Nat → TagMap) (fuel i slept : Nat)
    (hm : dictEq (o i) e = false) :
    waitGo e o (fuel + 1) i slept = waitGo e o fuel (i + 1) (slept + 5) := by
  simp [waitGo, hm]

theorem waitGo_all_mismatch (e : TagMap) (o : Nat → TagMap) :
    ∀ fuel i slept, (∀ j, i ≤ j → j < i + fuel → dictEq (o j) e = false) →
      waitGo e o fuel i slept
        = .timedOut e (o (i + fuel - 1)) (i + fuel) (slept + 5 * fuel) := by
  intro fuel
  induction fuel with
  | zero => intro i slept _; simp [waitGo]
  | succ n ih =>
      intro i slept h
      have e1 : i + 1 + n - 1 = i + (n + 1) - 1 := by omega
      have e2 : i + 1 + n = i + (n + 1) := by omega
      have e3 : slept + 5 + 5 * n = slept + 5 * (n + 1) := by omega
      rw [waitGo_step e o n i slept (h i le_rfl (by omega)),
        ih (i + 1) (slept + 5) (fun j h1 h2 => h j (by omega) (by omega)),
        e1, e2, e3]

theorem waitGo_fetches_le (e : TagMap) (o : Nat → TagMap) :
    ∀ fuel i slept, waitFetches (waitGo e o fuel i slept) ≤ i + fuel := by
  intro fuel
  induction fuel with
  | zero => intro i slept; simp [waitGo, waitFetches]
  | succ n ih =>
      intro i slept
      simp only [waitGo]
      by_cases hc : dictEq (o i) e = true
      · rw [if_pos hc]
        simp only [waitFetches]
        omega
      · rw [if_neg hc]
        have := ih (i + 1) (slept + 5)
        omega

theorem waitGo_converged_dictEq (e : TagMap) (o : Nat → TagMap) :
    ∀ fuel i slept t n sl, waitGo e o fuel i slept = .converged t n sl →
      dictEq t e = true := by
  intro fuel
  induction fuel with
  | zero => intro i slept t n sl h; simp [waitGo] at h
  | succ m ih =>
      intro i slept t n sl h
      simp only [waitGo] at h
      by_cases hc : dictEq (o i) e = true
      · rw [if_pos hc] at h
        obtain ⟨rfl, -, -⟩ := WaitOutcome.converged.inj h
        exact hc
      · rw [if_neg hc] at h
        exact ih _ _ _ _ _ h

theorem downloadLoop_attempts (attempt : Nat → AttemptOutcome)
    (retries : Nat) :
    ∀ fuel x, attemptsOf (downloadLoop attempt retries fuel x) ≤ x + fuel := by
  intro fuel
  induction fuel with
  | zero => intro x; simp [downloadLoop, attemptsOf]
  | succ n ih =>
      intro x
      cases ha : attempt x with
      | success =>
          simp only [downloadLoop, ha, attemptsOf]
          omega
      | fault f =>
          cases f with
          | clientError =>
              by_cases hr : retries ≤ x
              · simp only [downloadLoop, ha]
                rw [if_pos hr]
                simp only [attemptsOf]
                omega
              · simp only [downloadLoop, ha]
                rw [if_neg hr]
                have := ih (x + 1)
                omega
          | botoCoreError =>
              by_cases hr : retries ≤ x
              · simp only [downloadLoop, ha]
                rw [if_pos hr]
                simp only [attemptsOf]
                omega
              · simp only [downloadLoop, ha]
                rw [if_neg hr]
                have := ih (x + 1)
                omega
          | sslError =>
              by_cases hr : retries ≤ x
              · simp only [downloadLoop, ha]
                rw [if_pos hr]
                simp only [attemptsOf]
                omega
              · simp only [downloadLoop, ha]
                rw [if_neg hr]
                have := ih (x + 1)
                omega
          | otherFault =>
              simp only [downloadLoop, ha, attemptsOf]
              omega

theorem ensure_tags_calls_tagOnly (t : Option TagMap) (p : Bool)
    (cur : TagMap) (o : Nat → TagMap) :
    ∀ c ∈ (ensure_tags t p cur o).calls, isTagCall c = true := by
  intro c hc
  rcases t with - | d
  · simp only [ensure_tags, List.mem_singleton] at hc
    simp [hc, isTagCall]
  · simp only [ensure_tags] at hc
    by_cases he : dictEq cur (if p then d else dictUpdate cur d) = true
    · rw [if_pos he] at hc
      simp only [List.mem_singleton] at hc
      simp [hc, isTagCall]
    · rw [if_neg he] at hc
      have hmut : ∀ x, x ∈ (if (if p then d else dictUpdate cur d) ≠ [] then
            [S3Call.putObjectTagging (if p then d else dictUpdate cur d)]
          else if p then [S3Call.deleteObjectTagging] else []) →
          isTagCall x = true := by
        intro x hx
        by_cases hne : (if p then d else dictUpdate cur d) ≠ []
        · rw [if_pos hne] at hx
          simp only [List.mem_singleton] at hx
          simp [hx, isTagCall]
        · rw [if_neg hne] at hx
          by_cases hp : p = true
          · rw [if_pos hp] at hx
            simp only [List.mem_singleton] at hx
            simp [hx, isTagCall]
          · rw [if_neg hp] at hx
            exact absurd hx (List.not_mem_nil x)
      rcases hw : wait_tags_are_applied (if p then d else dictUpdate cur d) o with
        ⟨tt, n, sl⟩ | ⟨req, live, n, sl⟩
      · rw [hw] at hc
        simp only [List.mem_cons, List.mem_append, List.mem_replicate] at hc
        rcases hc with (h1 | h2) | h3
        · simp [h1, isTagCall]
        · exact hmut c h2
        · simp [h3.2, isTagCall]
      · rw [hw] at hc
        simp only [List.mem_cons, List.mem_append, List.mem_replicate] at hc
        rcases hc with (h1 | h2) | h3
        · simp [h1, isTagCall]
        · exact hmut c h2
        · simp [h3.2, isTagCall]

theorem filter_mutating_replicate_get (n : Nat) :
    (List.replicate n S3Call.getObjectTagging).filter mutatingCall = [] := by
  induction n with
  | zero => rfl
  | succ m ih => simp [List.replicate_succ, List.filter_cons, mutatingCall, ih]

theorem not_mem_ensure_calls (t : Option TagMap) (p : Bool) (cur : TagMap)
    (o : Nat → TagMap) (c : S3Call) (h : isTagCall c = false) :
    c ∉ (ensure_tags t p cur o).calls := by
  intro hm
  have := ensure_tags_calls_tagOnly t p cur o c hm
  rw [h] at this
  exact Bool.false_ne_true this

/-! ## Claim theorems -/

/-- C7: an access-denied (403/Forbidden) head response makes both
existence probes return Present when `validate=false` and fail
fatally carrying the cause when `validate=true`; a 404 response
returns Absent under either `validate` value. -/
theorem probe_forbidden_and_not_found (v : Bool) :
    key_check false .forbidden = .present ∧
    bucket_check false .forbidden = .present ∧
    key_check true .forbidden = .fatalValidate .forbidden ∧
    bucket_check true .forbidden = .fatalValidate .forbidden ∧
    key_check v .notFound = .absent ∧
    bucket_check v .notFound = .absent :=
  ⟨rfl, rfl, rfl, rfl, rfl, rfl⟩

/-- C9: when the destination path does not exist locally,
`s3_object_do_get` never consults the overwrite policy — the download
proceeds for every policy value, including `never`; the skip branches
are only reachable when the destination path exists. -/
theorem get_absent_dest_always_downloads (v : GetVars)
    (hk : v.keyPresent = true) (hd : v.destPathExists = false) :
    s3_object_do_get_decision v = .download := by
  simp [s3_object_do_get_decision, hk, hd]

/-- Witness for C9: a concrete `overwrite=never` request whose
destination file is absent still downloads. -/
theorem get_absent_dest_always_downloads_witness :
    s3_object_do_get_decision
      ⟨true, true, false, "never", true, true⟩ = .download :=
  get_absent_dest_always_downloads ⟨true, true, false, "never", true, true⟩
    rfl rfl

/-- C10: after `populate_facts`, the overwrite policy is always one
of always/never/different/latest, and a value outside that enum is
not rejected but coerced through the boolean interpretation
(`module.boolean`, supplied as `b`) to always (truthy) or never
(falsy). -/
theorem overwrite_policy_normalised (b : String → Bool) (ow : String) :
    (populate_overwrite b ow = "always" ∨ populate_overwrite b ow = "never" ∨
      populate_overwrite b ow = "different" ∨ populate_overwrite b ow = "latest") ∧
    (¬(ow = "always" ∨ ow = "never" ∨ ow = "different" ∨ ow = "latest") →
      populate_overwrite b ow = (if b ow then "always" else "never")) := by
  constructor
  · by_cases h : ow = "always" ∨ ow = "never" ∨ ow = "different" ∨ ow = "latest"
    · rw [populate_overwrite, if_pos h]
      exact h
    · rw [populate_overwrite, if_neg h]
      by_cases hb : b ow <;> simp [hb]
  · intro h
    rw [populate_overwrite, if_neg h]

/-- Witness for C10: the out-of-enum value "sometimes" is coerced to
"always" under a truthy boolean interpretation. -/
theorem overwrite_policy_normalised_witness :
    populate_overwrite (fun _ => true) "sometimes" = "always" := by
  have h := (overwrite_policy_normalised (fun _ => true) "sometimes").2
    (by simp)
  simpa using h

/-- C3 (failing part): after a "requires signature version 4" fault,
the `s3_object_do_get` recovery block reads `s3_vars["obj"]` — a key
never bound in `s3_vars` — so the retry raises a `KeyError` instead
of re-downloading, while the analogous `s3_object_do_getstr`
recovery uses `s3_vars["object"]` and does retry. -/
theorem sigv4_get_retry_raises_key_error :
    do_get_sigv4_retry s3VarsKeys = .keyErrorRaised "obj" ∧
    do_getstr_sigv4_retry s3VarsKeys = .downloadRetried := by
  constructor <;> decide

/-- C6: if no observation matches the target, the polling loop
fetches the current tags exactly 12 times, sleeping 5 units after
each mismatch (60 units in total), and then fails reporting both the
requested tag set and the last-observed tag set; in every run at most
12 fetches happen. -/
theorem wait_tags_polls_bounded (expected : TagMap)
    (observe : Nat → TagMap)
    (h : ∀ i, i < 12 → dictEq (observe i) expected = false) :
    wait_tags_are_applied expected observe
      = .timedOut expected (observe 11) 12 60 ∧
    ∀ (e : TagMap) (o : Nat → TagMap),
      waitFetches (wait_tags_are_applied e o) ≤ 12 := by
  constructor
  · have := waitGo_all_mismatch expected observe 12 0 0
      (fun j h1 h2 => h j (by omega))
    simpa [wait_tags_are_applied] using this
  · intro e o
    have := waitGo_fetches_le e o 12 0 0
    simpa [wait_tags_are_applied] using this

/-- Witness for C6: with live tags stuck at `{a: 1}` and an empty
target, the loop times out after exactly 12 fetches and 60 units of
sleep, reporting the target and the stuck live tags. -/
theorem wait_tags_polls_bounded_witness :
    wait_tags_are_applied [] (fun _ => [("a", "1")])
      = .timedOut [] [("a", "1")] 12 60 :=
  (wait_tags_polls_bounded [] (fun _ => [("a", "1")]) (by decide)).1

/-- C5: the `download_s3file` transfer loop makes at most
`retries + 1` attempts; a fault outside the caught
`ClientError`/`BotoCoreError`/`SSLError` classes propagates at once
without any retry; and when every attempt fails with a caught
transient fault, the final failure is surfaced as `S3ObjectFailure`
with the last cause attached, after exactly `retries + 1` attempts. -/
theorem download_transfer_retry_policy (attempt : Nat → AttemptOutcome)
    (retries : Nat) :
    attemptsOf (download_s3file_transfer attempt retries) ≤ retries + 1 ∧
    (attempt 0 = .fault .otherFault →
      download_s3file_transfer attempt retries = .propagated 1 .otherFault) ∧
    ((∀ x, x ≤ retries → attempt x = .fault .clientError) →
      download_s3file_transfer attempt retries
        = .failedS3 (retries + 1) .clientError) := by
  refine ⟨?_, ?_, ?_⟩
  · have := downloadLoop_attempts attempt retries (retries + 1) 0
    simpa [download_s3file_transfer] using this
  · intro h
    simp [download_s3file_transfer, downloadLoop, h]
  · intro h
    have key : ∀ m k, k ≤ retries → retries - k = m →
        downloadLoop attempt retries (retries + 1 - k) k
          = .failedS3 (retries + 1) .clientError := by
      intro m
      induction m with
      | zero =>
          intro k hk hm
          have h1 : retries + 1 - k = 0 + 1 := by omega
          have hk1 : k + 1 = retries + 1 := by omega
          rw [h1]
          simp only [downloadLoop, h k hk]
          rw [if_pos (by omega : retries ≤ k), hk1]
      | succ n ih =>
          intro k hk hm
          have hlt : k < retries := by omega
          have h1 : retries + 1 - k = (retries + 1 - (k + 1)) + 1 := by omega
          rw [h1]
          simp only [downloadLoop, h k (le_of_lt hlt)]
          rw [if_neg (by omega : ¬retries ≤ k)]
          exact ih (k + 1) (by omega) (by omega)
    have := key retries 0 (by omega) (by omega)
    simpa [download_s3file_transfer] using this

/-- Witness for C5: with 2 retries and every attempt failing with a
`ClientError`, the loop makes exactly 3 attempts and surfaces
`S3ObjectFailure` with the cause; an uncaught fault on the first
attempt propagates immediately. -/
theorem download_transfer_retry_policy_witness :
    download_s3file_transfer (fun _ => .fault .clientError) 2
      = .failedS3 3 .clientError ∧
    attemptsOf (download_s3file_transfer (fun _ => .fault .clientError) 2) ≤ 3 ∧
    download_s3file_transfer (fun _ => .fault .otherFault) 2
      = .propagated 1 .otherFault := by
  refine ⟨?_, ?_, ?_⟩
  · exact (download_transfer_retry_policy (fun _ => .fault .clientError) 2).2.2
      (fun x _ => rfl)
  · exact (download_transfer_retry_policy (fun _ => .fault .clientError) 2).1
  · exact (download_transfer_retry_policy (fun _ => .fault .otherFault) 2).2.1 rfl

/-- C8: deleting an already-absent bucket issues no mutating call and
reports changed=false; after a successful delete of an existing
bucket, the bucket is absent and a second delete reports
changed=false with no mutating call. -/
theorem delete_bucket_idempotent (w : S3World) :
    (w.bucketExists = false →
      s3_object_do_delete true false w
        = (.exitedUnchanged, [S3Call.headBucket], w)) ∧
    (w.bucketExists = true →
      (s3_object_do_delete true false w).1 = .exitedChanged ∧
      (s3_object_do_delete true false w).2.2.bucketExists = false ∧
      s3_object_do_delete true false (s3_object_do_delete true false w).2.2
        = (.exitedUnchanged, [S3Call.headBucket],
            (s3_object_do_delete true false w).2.2)) ∧
    ∀ c ∈ [S3Call.headBucket], mutatingCall c = false := by
  refine ⟨?_, ?_, ?_⟩
  · intro h
    simp [s3_object_do_delete, delete_bucket, h]
  · intro h
    refine ⟨?_, ?_, ?_⟩ <;> simp [s3_object_do_delete, delete_bucket, h]
  · intro c hc
    simp only [List.mem_singleton] at hc
    simp [hc, mutatingCall]

/-- Witness for C8: a bucket holding keys p/1 and p/2 is deleted with
changed=true, and the second delete reports changed=false over the
emptied world; an absent bucket reports changed=false directly. -/
theorem delete_bucket_idempotent_witness :
    (s3_object_do_delete true false
        ⟨true, [[⟨"p/1", none⟩, ⟨"p/2", none⟩]]⟩).1 = .exitedChanged ∧
    s3_object_do_delete true false
        (s3_object_do_delete true false
          ⟨true, [[⟨"p/1", none⟩, ⟨"p/2", none⟩]]⟩).2.2
      = (.exitedUnchanged, [S3Call.headBucket],
          (s3_object_do_delete true false
            ⟨true, [[⟨"p/1", none⟩, ⟨"p/2", none⟩]]⟩).2.2) ∧
    s3_object_do_delete true false ⟨false, []⟩
      = (.exitedUnchanged, [S3Call.headBucket], ⟨false, []⟩) := by
  have h1 := (delete_bucket_idempotent
    ⟨true, [[⟨"p/1", none⟩, ⟨"p/2", none⟩]]⟩).2.1 rfl
  have h2 := (delete_bucket_idempotent ⟨false, []⟩).1 rfl
  exact ⟨h1.1, h1.2.2, h2⟩

/-- C2: with desired tags set, the tag-convergence target is
`desired` under purge and `current` updated by `desired` otherwise
(desired winning on key conflicts, untouched keys preserved); equal
current and target means no tagging mutation and changed=false; a
differing non-empty target is written by exactly one full-replace
`put_object_tagging`; a differing empty target under purge by exactly
one `delete_object_tagging`; and any returned tag set equals the
target exactly (dict equality, not superset). -/
theorem ensure_tags_convergence_contract (desired current : TagMap)
    (purge : Bool) (observe : Nat → TagMap) :
    (dictEq current (if purge then desired else dictUpdate current desired) = true →
      ensure_tags (some desired) purge current observe
        = ⟨[S3Call.getObjectTagging], .ok current false⟩) ∧
    (dictEq current (if purge then desired else dictUpdate current desired) = false →
      (if purge then desired else dictUpdate current desired) ≠ [] →
      (ensure_tags (some desired) purge current observe).calls.filter mutatingCall
        = [S3Call.putObjectTagging
            (if purge then desired else dictUpdate current desired)]) ∧
    (dictEq current (if purge then desired else dictUpdate current desired) = false →
      (if purge then desired else dictUpdate current desired) = [] →
      purge = true →
      (ensure_tags (some desired) purge current observe).calls.filter mutatingCall
        = [S3Call.deleteObjectTagging]) ∧
    (∀ t c, (ensure_tags (some desired) purge current observe).outcome = .ok t c →
      dictEq t (if purge then desired else dictUpdate current desired) = true) ∧
    (purge = false → (desired.map Prod.fst).Nodup →
      ∀ k v, tagLookup k desired = some v →
        tagLookup k (dictUpdate current desired) = some v) ∧
    (∀ k, k ∉ desired.map Prod.fst →
      tagLookup k (dictUpdate current desired) = tagLookup k current) := by
  refine ⟨?_, ?_, ?_, ?_, ?_, ?_⟩
  · intro h
    simp only [ensure_tags]
    rw [if_pos h]
  · intro h hne
    simp only [ensure_tags]
    rw [if_neg (by simp [h]), if_pos hne]
    rcases hw : wait_tags_are_applied
        (if purge then desired else dictUpdate current desired) observe with
      ⟨tt, n, sl⟩ | ⟨req, live, n, sl⟩ <;>
      simp [hw, List.filter_append, mutatingCall, filter_mutating_replicate_get]
  · intro h hte hp
    subst hp
    simp only [if_true] at h hte
    subst hte
    rcases hw : wait_tags_are_applied ([] : TagMap) observe with
      ⟨tt, n, sl⟩ | ⟨req, live, n, sl⟩ <;>
      simp [ensure_tags, h, hw, List.filter_append, mutatingCall,
        filter_mutating_replicate_get]
  · intro t c h
    simp only [ensure_tags] at h
    by_cases he : dictEq current
        (if purge then desired else dictUpdate current desired) = true
    · rw [if_pos he] at h
      obtain ⟨rfl, -⟩ := EnsureOutcome.ok.inj h
      exact he
    · rw [if_neg he] at h
      rcases hw : wait_tags_are_applied
          (if purge then desired else dictUpdate current desired) observe with
        ⟨tt, n, sl⟩ | ⟨req, live, n, sl⟩
      · rw [hw] at h
        simp only [EnsureOutcome.ok.injEq] at h
        obtain ⟨rfl, -⟩ := h
        exact waitGo_converged_dictEq _ observe 12 0 0 tt n sl hw
      · rw [hw] at h
        exact absurd h (by simp)
  · intro _hp hnd k v hl
    exact tagLookup_dictUpdate_mem desired current k v hnd hl
  · intro k hk
    exact tagLookup_dictUpdate_not_mem desired current k hk

/-- Witness for C2: current tags `{a: 1}`, desired `{b: 2}` with
purge=true — the mutation is exactly one full replace writing
`{b: 2}`, and the converged result equals the target exactly. -/
theorem ensure_tags_convergence_contract_witness :
    (ensure_tags (some [("b", "2")]) true [("a", "1")]
        (fun _ => [("b", "2")])).calls.filter mutatingCall
      = [S3Call.putObjectTagging [("b", "2")]] ∧
    dictEq [("b", "2")]
      (if true then [("b", "2")] else dictUpdate [("a", "1")] [("b", "2")])
      = true := by
  have h := ensure_tags_convergence_contract [("b", "2")] [("a", "1")] true
    (fun _ => [("b", "2")])
  refine ⟨?_, ?_⟩
  · have h2 := h.2.1 (by decide) (by decide)
    simpa using h2
  · exact h.2.2.2.1 [("b", "2")] true (by decide)

theorem putSkipBranch_props (v : PutVars) (pre : List S3Call)
    (hpre : ∀ c ∈ pre, mutatingCall c = false) :
    S3Call.uploadFile ∉ (putSkipBranch v pre).calls ∧
    S3Call.uploadFileobj ∉ (putSkipBranch v pre).calls ∧
    (∀ c ∈ (putSkipBranch v pre).calls, mutatingCall c = true →
      isTagCall c = true) ∧
    (∀ t c, (ensure_tags v.tags v.purgeTags v.currentTags v.observe).outcome
        = .ok t c →
      (putSkipBranch v pre).outcome = .exitedSkip c ∧
      S3Call.presignGet ∈ (putSkipBranch v pre).calls) := by
  rcases her : (ensure_tags v.tags v.purgeTags v.currentTags v.observe).outcome
    with ⟨tt, cc⟩ | ⟨req, live⟩
  · refine ⟨?_, ?_, ?_, ?_⟩
    · intro hm
      simp only [putSkipBranch, her, List.mem_append, List.mem_singleton] at hm
      rcases hm with (h1 | h2) | h3
      · simpa [mutatingCall] using hpre _ h1
      · exact not_mem_ensure_calls v.tags v.purgeTags v.currentTags v.observe
          S3Call.uploadFile rfl h2
      · exact S3Call.noConfusion h3
    · intro hm
      simp only [putSkipBranch, her, List.mem_append, List.mem_singleton] at hm
      rcases hm with (h1 | h2) | h3
      · simpa [mutatingCall] using hpre _ h1
      · exact not_mem_ensure_calls v.tags v.purgeTags v.currentTags v.observe
          S3Call.uploadFileobj rfl h2
      · exact S3Call.noConfusion h3
    · intro c hm hmut
      simp only [putSkipBranch, her, List.mem_append, List.mem_singleton] at hm
      rcases hm with (h1 | h2) | h3
      · rw [hpre _ h1] at hmut
        exact absurd hmut (by simp)
      · exact ensure_tags_calls_tagOnly v.tags v.purgeTags v.currentTags
          v.observe c h2
      · rw [h3] at hmut
        exact absurd hmut (by simp [mutatingCall])
    · intro t c h
      obtain ⟨rfl, rfl⟩ := EnsureOutcome.ok.inj h
      constructor
      · simp [putSkipBranch, her]
      · simp [putSkipBranch, her]
  · refine ⟨?_, ?_, ?_, ?_⟩
    · intro hm
      simp only [putSkipBranch, her, List.mem_append] at hm
      rcases hm with h1 | h2
      · simpa [mutatingCall] using hpre _ h1
      · exact not_mem_ensure_calls v.tags v.purgeTags v.currentTags v.observe
          S3Call.uploadFile rfl h2
    · intro hm
      simp only [putSkipBranch, her, List.mem_append] at hm
      rcases hm with h1 | h2
      · simpa [mutatingCall] using hpre _ h1
      · exact not_mem_ensure_calls v.tags v.purgeTags v.currentTags v.observe
          S3Call.uploadFileobj rfl h2
    · intro c hm hmut
      simp only [putSkipBranch, her, List.mem_append] at hm
      rcases hm with h1 | h2
      · rw [hpre _ h1] at hmut
        exact absurd hmut (by simp)
      · exact ensure_tags_calls_tagOnly v.tags v.purgeTags v.currentTags
          v.observe c h2
    · intro t c h
      exact absurd h (by simp)

/-- C1: a put against a Present remote object with `overwrite=never`,
or with `overwrite=different` and a matching fingerprint, issues no
transfer call (indeed no mutating call beyond tag convergence),
still runs tag convergence, reissues a presigned GET URL, and exits
with changed equal to whether the tag update changed anything. -/
theorem put_present_skip_no_transfer (v : PutVars)
    (_hcm : v.checkMode = false) (hb : v.bucketrtn = true)
    (hk : v.keyPresent = true) (hc : v.contentIsNone = false)
    (hs : v.srcIsNone = true)
    (hpol : v.overwrite = "never" ∨
      (v.overwrite = "different" ∧ v.etagMatch = true)) :
    S3Call.uploadFile ∉ (s3_object_do_put v).calls ∧
    S3Call.uploadFileobj ∉ (s3_object_do_put v).calls ∧
    (∀ c ∈ (s3_object_do_put v).calls, mutatingCall c = true →
      isTagCall c = true) ∧
    (∀ t c, (ensure_tags v.tags v.purgeTags v.currentTags v.observe).outcome
        = .ok t c →
      (s3_object_do_put v).outcome = .exitedSkip c ∧
      S3Call.presignGet ∈ (s3_object_do_put v).calls) := by
  rcases hpol with hnev | ⟨hdiff, het⟩
  · have hna : v.overwrite ≠ "always" := by rw [hnev]; decide
    have hred : s3_object_do_put v = putSkipBranch v [S3Call.headObject] := by
      simp only [s3_object_do_put]
      rw [if_neg (by simp [hc]), if_neg (by simp [hs]), if_pos hb,
        if_pos ⟨hk, hna⟩, if_pos hnev]
    rw [hred]
    refine putSkipBranch_props v [S3Call.headObject] ?_
    intro c hcm'
    have hch : c = S3Call.headObject := by simpa using hcm'
    simp [hch, mutatingCall]
  · have hna : v.overwrite ≠ "always" := by rw [hdiff]; decide
    have hnn : ¬v.overwrite = "never" := by rw [hdiff]; decide
    have hred : s3_object_do_put v
        = putSkipBranch v [S3Call.headObject, S3Call.headObject] := by
      simp only [s3_object_do_put]
      rw [if_neg (by simp [hc]), if_neg (by simp [hs]), if_pos hb,
        if_pos ⟨hk, hna⟩, if_neg hnn, if_pos het]
    rw [hred]
    refine putSkipBranch_props v [S3Call.headObject, S3Call.headObject] ?_
    intro c hcm'
    have hch : c = S3Call.headObject := by simpa using hcm'
    simp [hch, mutatingCall]

/-- Witness for C1: a concrete `overwrite=never` put against a present
key whose desired tags already match issues no upload, reissues the
GET URL, and reports changed=false. -/
theorem put_present_skip_no_transfer_witness :
    S3Call.uploadFile ∉ (s3_object_do_put putSkipWitnessVars).calls ∧
    (s3_object_do_put putSkipWitnessVars).outcome = .exitedSkip false ∧
    S3Call.presignGet ∈ (s3_object_do_put putSkipWitnessVars).calls := by
  have h := put_present_skip_no_transfer putSkipWitnessVars rfl rfl rfl rfl rfl
    (Or.inl rfl)
  have h4 := h.2.2.2 [("a", "1")] false (by decide)
  exact ⟨h.1, h4.1, h4.2⟩

/-- C4 (failing part): in check mode, the put skip branch still calls
`ensure_tags`, which issues a real `put_object_tagging` — a mutating
remote call — because `ensure_tags` has no check-mode guard. -/
theorem check_mode_put_skip_issues_tagging :
    putCheckModeVars.checkMode = true ∧
    (s3_object_do_put putCheckModeVars).calls.filter mutatingCall
      = [S3Call.putObjectTagging [("a", "1")]] := by
  exact ⟨rfl, by decide⟩

end S3Object
